import Mathlib

/-!
Verification development for the Amazon buybox tracker backend
(src/backend/main.py and src/backend/database.py).

Python strings are modelled as lists of characters (`Str`); Python `float`
values arising from price/rating parsing are modelled as rationals (`ℚ`);
`None` is modelled by `Option`.  Each definition mirrors one Python
function or inline block of the source; the doc comment of every
definition names the source location it embeds.
-/

/-- Python strings, modelled as lists of characters. -/
abbrev Str := List Char

/-- Convert a Lean string literal into the `Str` model. -/
def s2l (s : String) : Str := s.data

/-- Characters treated as whitespace by Python `str.strip` / `\s`
(ASCII whitespace plus the no-break and narrow no-break spaces that occur
in the scraped pages). -/
def isPySpace (c : Char) : Bool :=
  c == ' ' || c == '\t' || c == '\n' || c == '\r' || c == '\x0b' ||
  c == '\x0c' || c == '\u00A0' || c == '\u202F'

/-- Word characters of Python `re`'s `\w` (over the ASCII range). -/
def isWordChar (c : Char) : Bool := c.isAlphanum || c == '_'

/-- Python `str.lower` (over the ASCII range, which covers the names
compared by the tracker). -/
def lowerStr (s : Str) : Str := s.map Char.toLower

/-- Python `str.replace(c, "")` for a one-character pattern: delete every
occurrence of the character. -/
def delChar (c : Char) (s : Str) : Str := s.filter (fun d => d != c)

/-- Python `str.replace(ab, "")` for a two-character pattern: delete every
non-overlapping occurrence, scanning left to right. -/
def delPair (a b : Char) : Str → Str
  | [] => []
  | [c] => [c]
  | c :: d :: u =>
    if c = a ∧ d = b then delPair a b u
    else c :: delPair a b (d :: u)

/-- Python `str.strip()`: drop leading and trailing whitespace. -/
def stripWs (s : Str) : Str :=
  ((s.dropWhile isPySpace).reverse.dropWhile isPySpace).reverse

/-- Does `s` start with the pattern `p`? -/
def startsW (p s : Str) : Bool :=
  match p, s with
  | [], _ => true
  | _ :: _, [] => false
  | a :: ps, c :: cs => a == c && startsW ps cs

/-- Python `pat in s`: does the pattern occur as a contiguous substring? -/
def hasSub (pat : Str) : Str → Bool
  | [] => startsW pat []
  | c :: t => startsW pat (c :: t) || hasSub pat t

/-- Python `str.split(sep)` with a one-character separator: keeps empty
pieces, always returns a non-empty list. -/
def splitChar (sep : Char) : Str → List Str
  | [] => [[]]
  | c :: t =>
    let r := splitChar sep t
    if c = sep then [] :: r
    else
      match r with
      | h :: rest => (c :: h) :: rest
      | [] => [[c]]

/-- Whitespace tokenisation of an HTML `class` attribute value, as done by
the HTML parser backing BeautifulSoup (the class values in this code base
are single-space separated). -/
def splitWsAll (s : Str) : List Str :=
  (splitChar ' ' s).filter (fun w => w ≠ [])

/-- Python `sep.join(pieces)`. -/
def joinWith (sep : Str) : List Str → Str
  | [] => []
  | [x] => x
  | x :: y :: t => x ++ sep ++ joinWith sep (y :: t)

/-- Numeric value of a digit string (most significant digit first). -/
def digitsVal (s : Str) : ℕ :=
  s.foldl (fun a c => a * 10 + (c.toNat - 48)) 0

/-- Python `str.isdigit()` (over ASCII digits): non-empty and all digits. -/
def isdigitStr (s : Str) : Bool := s ≠ [] && s.all Char.isDigit

/-- Python `float(s)` on the plain decimal forms produced by the scraper
(optional surrounding whitespace, optional sign, digits with at most one
dot, at least one digit).  Exponent, infinity and underscore forms of the
Python float literal never arise from the price pipelines and are not
modelled; every other input returns `none` (models raising `ValueError`). -/
def pyFloat (s : Str) : Option ℚ :=
  let t := stripWs s
  let su : Bool × Str :=
    match t with
    | '-' :: r => (true, r)
    | '+' :: r => (false, r)
    | r => (false, r)
  let sign := su.1
  let u := su.2
  match splitChar '.' u with
  | [a] =>
    if a ≠ [] ∧ a.all Char.isDigit then
      some (if sign then -(digitsVal a : ℚ) else (digitsVal a : ℚ))
    else none
  | [a, b] =>
    if (a ≠ [] ∨ b ≠ []) ∧ a.all Char.isDigit ∧ b.all Char.isDigit then
      let v : ℚ := (digitsVal a : ℚ) + (digitsVal b : ℚ) / 10 ^ b.length
      some (if sign then -v else v)
    else none
  | _ => none

/-- Python truthiness of an optional string (`None` and `""` are falsy). -/
def pyTruthyStr : Option Str → Bool
  | none => false
  | some s => s ≠ []

/-- Python truthiness of an optional float (`None` and `0.0` are falsy). -/
def pyTruthyFloat : Option ℚ → Bool
  | none => false
  | some q => q ≠ 0

/-- Cleaning stage of `parse_price` (main.py lines 193-194): remove
no-break and narrow no-break spaces, then the currency glyph strings
R, £, $, €, A$, C$ (in source order), then strip surrounding whitespace. -/
def pp_cleaned (raw : Str) : Str :=
  stripWs (delPair 'C' '$' (delPair 'A' '$'
    (delChar '€' (delChar '$' (delChar '£' (delChar 'R'
      (delChar '\u202F' (delChar '\u00A0' raw))))))))

/-- Embedding of `parse_price` (main.py lines 188-208): clean the raw
string, disambiguate thousands/decimal separators by the comma/dot
pattern, convert with `float`, and discard non-positive results. -/
def parse_price (raw : Str) : Option ℚ :=
  if raw = [] then none
  else
    let cleaned := pp_cleaned raw
    let cleaned2 :=
      if (',' ∈ cleaned) ∧ ('.' ∉ cleaned) then
        (delChar ' ' cleaned).map (fun c => if c = ',' then '.' else c)
      else if (',' ∈ cleaned) ∧ ('.' ∈ cleaned) then
        delChar ',' cleaned
      else
        delChar ',' (delChar ' ' cleaned)
    match pyFloat cleaned2 with
    | some v => if 0 < v then some v else none
    | none => none

set_option maxRecDepth 10000

example : parse_price (s2l "1 660,00") = some 1660 := by with_unfolding_all decide
example : parse_price (s2l "1,660.00") = some 1660 := by with_unfolding_all decide
example : parse_price (s2l "53.48") = some (5348 / 100) := by with_unfolding_all decide
example : parse_price (s2l "0") = none := by with_unfolding_all decide
example : parse_price (s2l "-5") = none := by with_unfolding_all decide
example : parse_price (s2l "") = none := by with_unfolding_all decide
example : parse_price (s2l "R1 299,00") = some 1299 := by with_unfolding_all decide

/-- Parsed HTML node: an element with a tag name, attribute list and
children, or a text fragment.  Models the BeautifulSoup tree the scraper
queries; a whole document is represented by a root element whose
descendants are the page's nodes. -/
inductive Node where
  | elem (tag : Str) (nattrs : List (Str × Str)) (children : List Node)
  | text (s : Str)

mutual

/-- All descendants of a node, in document (preorder) order, excluding
the node itself — the iteration order of BeautifulSoup `find`/`find_all`. -/
def descList : Node → List Node
  | .text _ => []
  | .elem _ _ cs => descsOf cs

/-- Preorder listing of a forest of nodes (each node followed by its
descendants). -/
def descsOf : List Node → List Node
  | [] => []
  | n :: ns => n :: (descList n ++ descsOf ns)

end

mutual

/-- The text fragments below a node, in document order (BeautifulSoup
`strings`). -/
def textFrags : Node → List Str
  | .text s => [s]
  | .elem _ _ cs => textFragsL cs

/-- Text fragments of a forest of nodes. -/
def textFragsL : List Node → List Str
  | [] => []
  | n :: ns => textFrags n ++ textFragsL ns

end

/-- Tag name of a node (`none` for text fragments). -/
def tagOf : Node → Option Str
  | .elem t _ _ => some t
  | .text _ => none

/-- Attribute lookup on a node (`Tag.get(name)`): first binding wins. -/
def getAttr (n : Node) (key : Str) : Option Str :=
  match n with
  | .text _ => none
  | .elem _ nattrs _ =>
    (nattrs.find? (fun kv => kv.1 == key)).map (fun kv => kv.2)

/-- Attribute lookup with a default (`Tag.get(name, default)`). -/
def getAttrD (n : Node) (key : Str) (dflt : Str) : Str :=
  (getAttr n key).getD dflt

/-- Does the node have the given tag name? -/
def tagIs (n : Node) (t : Str) : Bool := tagOf n == some t

/-- Does the node have the given `id` attribute? -/
def idIs (n : Node) (v : Str) : Bool := getAttr n (s2l "id") == some v

/-- BeautifulSoup matching of a string against the multi-valued `class`
attribute: the string matches one of the class tokens, or the full
space-joined class value. -/
def classHasStr (n : Node) (pat : Str) : Bool :=
  match getAttr n (s2l "class") with
  | none => false
  | some v =>
    let toks := splitWsAll v
    toks.contains pat || joinWith (s2l " ") toks == pat

/-- BeautifulSoup matching of the predicate
`lambda c: c and sub in c` against the multi-valued `class` attribute:
the predicate is applied to each class token. -/
def classTokCont (n : Node) (sub : Str) : Bool :=
  match getAttr n (s2l "class") with
  | none => false
  | some v => (splitWsAll v).any (fun t => hasSub sub t)

/-- BeautifulSoup `find_all` restricted to this node's descendants. -/
def bfindAll (n : Node) (p : Node → Bool) : List Node :=
  (descList n).filter p

/-- BeautifulSoup `find`: first matching descendant in document order. -/
def bfind (n : Node) (p : Node → Bool) : Option Node :=
  (bfindAll n p).head?

/-- BeautifulSoup `get_text(sep, strip=True)`: strip each text fragment,
drop the ones that become empty, join with the separator. -/
def getTextSep (n : Node) (sep : Str) : Str :=
  joinWith sep (((textFrags n).map stripWs).filter (fun s => s ≠ []))

/-- BeautifulSoup `get_text(strip=True)` (empty separator). -/
def getTextStrip (n : Node) : Str := getTextSep n []

/-- BeautifulSoup `get_text()` without stripping: plain concatenation of
the text fragments. -/
def getTextRaw (n : Node) : Str := joinWith [] (textFrags n)

/-- Match of `re.search(r'\bamazon\b', s)` at the current position:
boundary before (previous character, if any, is not a word character),
the literal `amazon`, boundary after. -/
def matchesWordAt (prevIsWord : Bool) (s : Str) : Bool :=
  !prevIsWord && startsW (s2l "amazon") s &&
    (match s.drop 6 with
     | [] => true
     | c :: _ => !isWordChar c)

/-- Scanner for `re.search(r'\bamazon\b', s)`, threading whether the
previous character was a word character. -/
def searchAuxW (prevIsWord : Bool) : Str → Bool
  | [] => false
  | c :: t => matchesWordAt prevIsWord (c :: t) || searchAuxW (isWordChar c) t

/-- Embedding of `re.search(r'\bamazon\b', s)` (main.py line 531): does
`s` contain `amazon` as a whole word? -/
def hasWordAmazon (s : Str) : Bool := searchAuxW false s

/-- Length of the leading whitespace run. -/
def wsCount (s : Str) : ℕ := (s.takeWhile isPySpace).length

/-- Lazy expansion of a capture group `[^excl]{2,maxL}?` followed by a
terminator: try the shortest length first, regex-engine style. -/
def soldByTryLens (excl : List Char) (maxL : ℕ) (term : Str → Bool)
    (rest : Str) : Option Str :=
  (List.range (maxL - 1)).findSome? (fun i =>
    let len := i + 2
    let cap := rest.take len
    if cap.length = len && cap.all (fun c => !(excl.contains c)) &&
        term (rest.drop len)
    then some cap else none)

/-- Backtracking over the greedy `\s+` between `Sold by` and the capture
group: longest whitespace run first, at least one character. -/
def soldByTryWs (excl : List Char) (maxL : ℕ) (term : Str → Bool)
    (afterKw : Str) : Option Str :=
  let wMax := wsCount afterKw
  (List.range wMax).findSome? (fun j => soldByTryLens excl maxL term (afterKw.drop (wMax - j)))

/-- Leftmost-match scan for `re.search(r'Sold by\s+([^excl]{2,maxL}?)(term)', s)`:
at each position where the literal `Sold by` matches, attempt the full
pattern; the first position with a full match yields its capture. -/
def soldBySearch (excl : List Char) (maxL : ℕ) (term : Str → Bool) : Str → Option Str
  | [] => none
  | c :: t =>
    match (if startsW (s2l "Sold by") (c :: t)
           then soldByTryWs excl maxL term ((c :: t).drop 7)
           else none) with
    | some cap => some cap
    | none => soldBySearch excl maxL term t

/-- Terminator `(?:\s|$)` of the offer-listing seller regex
(main.py line 298). -/
def termWsOrEnd (s : Str) : Bool :=
  match s with
  | [] => true
  | c :: _ => isPySpace c

/-- Terminator `(?:\s*\.|$|\s*Fulfilled|\s*Ships)` of the page-text
seller regex (main.py line 503). -/
def termMain (s : Str) : Bool :=
  match s with
  | [] => true
  | _ =>
    let r := s.dropWhile isPySpace
    startsW (s2l ".") r || startsW (s2l "Fulfilled") r || startsW (s2l "Ships") r

/-- Embedding of the capture of
`re.search(r'Sold by\s+([^\.\n\|]{2,60}?)(?:\s*\.|$|\s*Fulfilled|\s*Ships)', page_text)`
(main.py line 503). -/
def soldByMain (s : Str) : Option Str :=
  soldBySearch ['.', '\n', '|'] 60 termMain s

/-- Embedding of the capture of
`re.search(r'Sold by\s+([^\.\n]{2,50}?)(?:\s|$)', offer_text)`
(main.py line 298). -/
def soldByOffer (s : Str) : Option Str :=
  soldBySearch ['.', '\n'] 50 termWsOrEnd s

/-- Match of one alternative of
`(sent from and sold by|sold and fulfilled by|ships from and sold by)\s*amazon`
at the current position (the text is already lowercased for `re.I`). -/
def phraseAt (s : Str) (p : Str) : Bool :=
  startsW p s && startsW (s2l "amazon") ((s.drop p.length).dropWhile isPySpace)

/-- Embedding of
`re.search(r'(sent from and sold by|sold and fulfilled by|ships from and sold by)\s*amazon', page_text, re.I)`
(main.py line 513), applied to the lowercased page text. -/
def phraseScan : Str → Bool
  | [] => false
  | c :: t =>
    phraseAt (c :: t) (s2l "sent from and sold by") ||
    phraseAt (c :: t) (s2l "sold and fulfilled by") ||
    phraseAt (c :: t) (s2l "ships from and sold by") ||
    phraseScan t

example : hasWordAmazon (s2l "sold by amazon.co.za") = true := by decide
example : hasWordAmazon (s2l "amazonia") = false := by decide
example : hasWordAmazon (s2l "amazon") = true := by decide
example : soldByMain (s2l "Sold by BestShop Ltd. More") = some (s2l "BestShop Ltd") := by decide
example : soldByMain (s2l "nothing here") = none := by decide
example : soldByOffer (s2l "Sold by Acme Store today") = some (s2l "Acme") := by decide
example : phraseScan (s2l "ships from and sold by amazon.co.za") = true := by decide

/-- Configured own-storefront name (main.py line 55, default value). -/
def MY_SELLER_NAME : Str := s2l "Bonolo Online"

/-- Result dictionary of one scrape attempt (`get_amazon_buybox`).
Fields that a non-success result dictionary does not carry are `Option`s
and are `none` there. -/
structure ExtractResult where
  asin : Str
  url : Str
  marketplace : Option Str
  scraped_at : Str
  status : Str
  error : Option Str
  title : Option Str
  buybox_price : Option ℚ
  currency : Option Str
  buybox_seller : Option Str
  is_amazon_seller : Option Bool
  is_my_buybox : Option Bool
  buybox_status : Option Str
  rating : Option ℚ
  review_count : Option ℕ
  availability : Option Str
  image_url : Option Str
deriving DecidableEq

/-- Dictionary returned by a successful `get_offer_listing_data` call:
both fields are present (and truthy) when it returns non-`None`. -/
structure OfferData where
  price : ℚ
  seller : Str
deriving DecidableEq

/-- Embedding of `extract_price_from_block` (main.py lines 374-397): try
the whole+fraction span pair, else the offscreen full-price text through
`parse_price`. -/
def extract_price_from_block (block : Option Node) : Option ℚ :=
  match block with
  | none => none
  | some b =>
    let offscreenTry : Option ℚ :=
      match bfind b (fun n => tagIs n (s2l "span") && classHasStr n (s2l "a-offscreen")) with
      | some o =>
        match parse_price (getTextStrip o) with
        | some p => if p ≠ 0 then some p else none
        | none => none
      | none => none
    match bfind b (fun n => tagIs n (s2l "span") && classHasStr n (s2l "a-price-whole")) with
    | some pe =>
      let whole := stripWs (delChar 'R' (delChar '.' (delChar ',' (getTextStrip pe))))
      let frac0 :=
        match bfind b (fun n => tagIs n (s2l "span") && classHasStr n (s2l "a-price-fraction")) with
        | some fe => stripWs (getTextStrip fe)
        | none => s2l "00"
      let frac := stripWs (delChar '.' (delChar ',' frac0))
      if isdigitStr whole then
        some ((digitsVal whole : ℚ) +
          (digitsVal (if isdigitStr frac then frac else s2l "00") : ℚ) /
            10 ^ (if isdigitStr frac then frac else s2l "00").length)
      else offscreenTry
    | none => offscreenTry

/-- Price container ids tried in order (main.py lines 400-407). -/
def price_container_ids : List Str :=
  [s2l "corePriceDisplay_desktop_feature_div", s2l "apex_desktop",
   s2l "buybox", s2l "buyNewSection", s2l "price", s2l "tmmSwatches"]

/-- Embedding of the price-container loop (main.py lines 408-412): each
iteration overwrites `price` with the extraction from the next container
and breaks on a truthy value, so a falsy value from a later container
replaces a falsy value from an earlier one. -/
def containerPrice (doc : Node) : Option ℚ :=
  price_container_ids.foldl
    (fun acc cid =>
      if pyTruthyFloat acc then acc
      else extract_price_from_block (bfind doc (fun n => idIs n cid)))
    none

/-- Loop body of the whole-page offscreen scan (main.py lines 416-421):
first offscreen span whose parsed value is truthy and positive. -/
def scanFirst : List Node → Option ℚ
  | [] => none
  | sp :: rest =>
    match parse_price (getTextStrip sp) with
    | some q => if q ≠ 0 ∧ 0 < q then some q else scanFirst rest
    | none => scanFirst rest

/-- Embedding of the whole-page offscreen price scan
(main.py lines 415-421). -/
def scanPrice (doc : Node) : Option ℚ :=
  scanFirst (bfindAll doc (fun n => tagIs n (s2l "span") && classHasStr n (s2l "a-offscreen")))

/-- Legacy price selectors (main.py lines 366-372). -/
def price_selectors : List (Node → Bool) :=
  [fun n => tagIs n (s2l "span") && idIs n (s2l "priceblock_ourprice"),
   fun n => tagIs n (s2l "span") && idIs n (s2l "priceblock_dealprice"),
   fun n => tagIs n (s2l "span") && classHasStr n (s2l "a-price-whole"),
   fun n => tagIs n (s2l "span") && idIs n (s2l "price_inside_buybox"),
   fun n => tagIs n (s2l "span") && classHasStr n (s2l "priceToPay")]

/-- Loop of the legacy price fallback (main.py lines 425-433): for the
first selector whose element's cleaned text converts with `float`, take
that value — with no positivity check. -/
def legacyGo (doc : Node) : List (Node → Bool) → Option ℚ
  | [] => none
  | p :: ps =>
    match bfind doc p with
    | some el =>
      let raw := stripWs (delChar 'R' (delChar '$' (delChar '£' (delChar ',' (getTextStrip el)))))
      match pyFloat raw with
      | some v => some v
      | none => legacyGo doc ps
    | none => legacyGo doc ps

/-- Embedding of the legacy price fallback (main.py lines 424-433). -/
def legacyPrice (doc : Node) : Option ℚ :=
  legacyGo doc price_selectors

/-- Combined buybox price of the primary page (main.py lines 365-433):
containers, then — when the current value is falsy — the whole-page
offscreen scan, then — when still falsy — the legacy fallback; a
fallback that finds nothing leaves the previous (possibly falsy)
value in place. -/
def pagePrice (doc : Node) : Option ℚ :=
  let p1 := containerPrice doc
  let p2 :=
    if pyTruthyFloat p1 then p1
    else
      match scanPrice doc with
      | some v => some v
      | none => p1
  if pyTruthyFloat p2 then p2
  else
    match legacyPrice doc with
    | some v => some v
    | none => p2

/-- One guarded assignment of the seller fallback chain: run the next
strategy only when the current value is falsy, and keep the current
value when the strategy produces nothing. -/
def sellerStep (cur strat : Option Str) : Option Str :=
  if pyTruthyStr cur then cur
  else
    match strat with
    | some v => some v
    | none => cur

/-- Seller strategy 1 (main.py lines 454-456): text of the
`sellerProfileTriggerId` link. -/
def s1profile (doc : Node) : Option Str :=
  (bfind doc (fun n => tagIs n (s2l "a") && idIs n (s2l "sellerProfileTriggerId"))).map getTextStrip

/-- Seller strategy 2 (main.py lines 459-467): first
`offer-display-feature-text-message` span with non-empty text; an
`amazon` mention (case-insensitive) normalises to `Amazon.co.za`. -/
def s2span (doc : Node) : Option Str :=
  match (bfindAll doc (fun n =>
      tagIs n (s2l "span") && classHasStr n (s2l "offer-display-feature-text-message"))).find?
      (fun sp => getTextStrip sp ≠ []) with
  | some sp =>
    let t := getTextStrip sp
    if hasSub (s2l "amazon") (lowerStr t) then some (s2l "Amazon.co.za") else some t
  | none => none

/-- Seller strategy 3 (main.py lines 470-479): `merchant-info` div —
prefer its link text; else its plain text only when it mentions
`amazon`. -/
def s3merchant (doc : Node) : Option Str :=
  match bfind doc (fun n => tagIs n (s2l "div") && idIs n (s2l "merchant-info")) with
  | some m =>
    match bfind m (fun n => tagIs n (s2l "a")) with
    | some a => some (getTextStrip a)
    | none =>
      if hasSub (s2l "amazon") (lowerStr (getTextStrip m)) then some (s2l "Amazon.co.za")
      else none
  | none => none

/-- Seller strategy 4 (main.py lines 482-490): in the `tabular-buybox`
div, the first `tabular-buybox-text` row whose secondary-colour label
contains `Sold by` yields its base-colour value text. -/
def s4tabular (doc : Node) : Option Str :=
  match bfind doc (fun n => tagIs n (s2l "div") && idIs n (s2l "tabular-buybox")) with
  | some tb =>
    match (bfindAll tb (fun n => tagIs n (s2l "div") && classHasStr n (s2l "tabular-buybox-text"))).find?
        (fun row =>
          match bfind row (fun n => tagIs n (s2l "span") && classHasStr n (s2l "a-color-secondary")),
                bfind row (fun n => tagIs n (s2l "span") && classHasStr n (s2l "a-color-base")) with
          | some label, some _ => hasSub (s2l "Sold by") (getTextRaw label)
          | _, _ => false) with
    | some row =>
      (bfind row (fun n => tagIs n (s2l "span") && classHasStr n (s2l "a-color-base"))).map getTextStrip
    | none => none
  | none => none

/-- Seller strategy 5 (main.py lines 493-498): first span whose class
token contains `a-color-secondary` and whose text matches
`sold by amazon` case-insensitively. -/
def s5secondary (doc : Node) : Option Str :=
  match (bfindAll doc (fun n => tagIs n (s2l "span") && classTokCont n (s2l "a-color-secondary"))).find?
      (fun sp => hasSub (s2l "sold by amazon") (lowerStr (getTextStrip sp))) with
  | some _ => some (s2l "Amazon.co.za")
  | none => none

/-- Seller strategy 6 (main.py lines 501-509): the `Sold by X` page-text
regex; a captured name mentioning `amazon` normalises to
`Amazon.co.za`. -/
def s6soldBy (page_text : Str) : Option Str :=
  match soldByMain page_text with
  | some cap =>
    let name := stripWs cap
    if hasSub (s2l "amazon") (lowerStr name) then some (s2l "Amazon.co.za") else some name
  | none => none

/-- Seller strategy 7 (main.py lines 512-514): the
`sent from and sold by amazon` family of page-text phrases. -/
def s7phrase (page_text : Str) : Option Str :=
  if phraseScan (lowerStr page_text) then some (s2l "Amazon.co.za") else none

/-- The seven-strategy seller fallback chain (main.py lines 450-514). -/
def sellerChain (doc : Node) (page_text : Str) : Option Str :=
  sellerStep (sellerStep (sellerStep (sellerStep (sellerStep (sellerStep
    (s1profile doc)
    (s2span doc)) (s3merchant doc)) (s4tabular doc)) (s5secondary doc))
    (s6soldBy page_text)) (s7phrase page_text)

/-- Embedding of the secondary-source merge (main.py lines 516-527):
when seller or price is falsy, fill each falsy field from a truthy
offer-listing field; `offer` is what `get_offer_listing_data` would
return for this identifier. -/
def mergeOffer (price : Option ℚ) (seller : Option Str) (offer : Option OfferData) :
    Option ℚ × Option Str :=
  if ¬ (pyTruthyStr seller = true) ∨ ¬ (pyTruthyFloat price = true) then
    match offer with
    | some od =>
      let price2 := if ¬ (pyTruthyFloat price = true) ∧ od.price ≠ 0 then some od.price else price
      let seller2 := if ¬ (pyTruthyStr seller = true) ∧ od.seller ≠ [] then some od.seller else seller
      (price2, seller2)
    | none => (price, seller)
  else (price, seller)

/-- Embedding of `is_amazon` (main.py lines 530-531): word-bounded
`amazon` search on the lowercased, stripped seller string. -/
def is_amazon_seller (seller : Option Str) : Bool :=
  hasWordAmazon (stripWs (lowerStr (seller.getD [])))

/-- Embedding of `is_mine` (main.py line 532): the lowercased configured
own name occurs as a substring of the lowercased, stripped seller
string. -/
def is_my_buybox (seller : Option Str) : Bool :=
  hasSub (lowerStr MY_SELLER_NAME) (stripWs (lowerStr (seller.getD [])))

/-- Embedding of the buybox status classification (main.py lines
537-542): own seller wins, then amazon, then a truthy seller is losing,
else unknown. -/
def buybox_status_of (seller : Option Str) (is_amazon is_mine : Bool) : Str :=
  if is_mine then s2l "winning"
  else if is_amazon then s2l "amazon"
  else if pyTruthyStr seller then s2l "losing"
  else s2l "unknown"

/-- Embedding of the currency mapping (main.py lines 436-447). -/
def currency_of (marketplace : Str) : Str :=
  if hasSub (s2l "amazon.co.za") marketplace then s2l "ZAR"
  else if hasSub (s2l "amazon.co.uk") marketplace then s2l "GBP"
  else if hasSub (s2l "amazon.de") marketplace || hasSub (s2l "amazon.fr") marketplace then s2l "EUR"
  else if hasSub (s2l "amazon.ca") marketplace then s2l "CAD"
  else if hasSub (s2l "amazon.com.au") marketplace then s2l "AUD"
  else s2l "USD"

/-- Embedding of the rating extraction (main.py lines 545-551). -/
def ratingOf (doc : Node) : Option ℚ :=
  match bfind doc (fun n => tagIs n (s2l "span") && idIs n (s2l "acrPopover")) with
  | some el =>
    let rt := (splitChar ' ' (getAttrD el (s2l "title") [])).headD []
    if rt ≠ [] then pyFloat rt else none
  | none => none

/-- Embedding of the review-count extraction (main.py lines 553-563). -/
def reviewsOf (doc : Node) : Option ℕ :=
  match bfind doc (fun n => tagIs n (s2l "span") && idIs n (s2l "acrCustomerReviewText")) with
  | some el =>
    let t0 := (splitChar ' ' (getTextStrip el)).headD []
    let t := stripWs (delChar ',' (delChar ')' (delChar '(' t0)))
    if isdigitStr t then some (digitsVal t) else none
  | none => none

/-- Embedding of the availability extraction (main.py lines 566-567). -/
def availOf (doc : Node) : Str :=
  match bfind doc (fun n => tagIs n (s2l "div") && idIs n (s2l "availability")) with
  | some el => getTextStrip el
  | none => s2l "Unknown"

/-- Embedding of the title extraction (main.py lines 358-362). -/
def titleOf (doc : Node) : Str :=
  match (match bfind doc (fun n => tagIs n (s2l "span") && idIs n (s2l "productTitle")) with
         | some el => some el
         | none => bfind doc (fun n => tagIs n (s2l "h1") && idIs n (s2l "title"))) with
  | some el => getTextStrip el
  | none => s2l "Unknown"

/-- Embedding of the image extraction (main.py lines 570-571).  When the
`img` element exists but carries neither a truthy `src` nor a quote
character in `data-a-dynamic-image`, the Python expression
`img_el.get("data-a-dynamic-image", "").split('"')[1]` raises
`IndexError`; the error is the exception message. -/
def imageStep (doc : Node) : Except Str (Option Str) :=
  let img_el :=
    match bfind doc (fun n => tagIs n (s2l "img") && idIs n (s2l "landingImage")) with
    | some e => some e
    | none => bfind doc (fun n => tagIs n (s2l "img") && idIs n (s2l "imgBlkFront"))
  match img_el with
  | none => .ok none
  | some im =>
    let dynBranch : Except Str (Option Str) :=
      match splitChar '"' (getAttrD im (s2l "data-a-dynamic-image") []) with
      | _ :: second :: _ => .ok (some second)
      | _ => .error (s2l "list index out of range")
    match getAttr im (s2l "src") with
    | some sv => if sv ≠ [] then .ok (some sv) else dynBranch
    | none => dynBranch

/-- Embedding of the parse stage of `get_amazon_buybox`
(main.py lines 347-581) for a fetched HTTP-200 document: field
extraction, secondary-source merge (with `offer` standing for the value
`get_offer_listing_data` would return), classification, and the outer
exception handler that converts an uncaught extraction exception into a
status-`error` result; `now` is the `datetime.now().isoformat()`
timestamp of the call. -/
def get_amazon_buybox (doc : Node) (asin marketplace : Str)
    (offer : Option OfferData) (now : Str) : ExtractResult :=
  let url := s2l "https://www." ++ marketplace ++ s2l "/dp/" ++ asin
  match imageStep doc with
  | .error msg =>
    { asin := asin, url := url, marketplace := none, scraped_at := now,
      status := s2l "error", error := some msg, title := none,
      buybox_price := none, currency := none, buybox_seller := none,
      is_amazon_seller := none, is_my_buybox := none, buybox_status := none,
      rating := none, review_count := none, availability := none,
      image_url := none }
  | .ok img =>
    let page_text := getTextSep doc (s2l " ")
    let ps := mergeOffer (pagePrice doc) (sellerChain doc page_text) offer
    let price2 := ps.1
    let seller2 := ps.2
    let isA := is_amazon_seller seller2
    let isM := is_my_buybox seller2
    { asin := asin, url := url, marketplace := some marketplace,
      scraped_at := now, status := s2l "success", error := none,
      title := some (titleOf doc), buybox_price := price2,
      currency := some (currency_of marketplace),
      buybox_seller := some (match seller2 with
        | some s => if s ≠ [] then s else s2l "Unknown"
        | none => s2l "Unknown"),
      is_amazon_seller := some isA, is_my_buybox := some isM,
      buybox_status := some (buybox_status_of seller2 isA isM),
      rating := ratingOf doc, review_count := reviewsOf doc,
      availability := some (availOf doc), image_url := img }

/-- The offer blocks of an offer-listing page (main.py line 233). -/
def offersOf (doc : Node) : List Node :=
  bfindAll doc (fun n => tagIs n (s2l "div") && classHasStr n (s2l "a-row a-spacing-mini olpOffer"))

/-- Price extraction from the first offer block (main.py lines 243-260):
whole+fraction sub-spans of the `a-price` span (joined with a dot and
converted with `float`), else — when falsy — the offscreen span through
`parse_price` (which overwrites the falsy value even when it fails). -/
def olPrice (first_offer : Node) : Option ℚ :=
  let p0 : Option ℚ :=
    match bfind first_offer (fun n => tagIs n (s2l "span") && classHasStr n (s2l "a-price")) with
    | some ps =>
      match bfind ps (fun n => tagIs n (s2l "span") && classHasStr n (s2l "a-price-whole")) with
      | some pw =>
        let whole := stripWs (delChar 'R' (delChar ' ' (delChar ',' (getTextStrip pw))))
        let frac :=
          match bfind ps (fun n => tagIs n (s2l "span") && classHasStr n (s2l "a-price-fraction")) with
          | some pf => stripWs (getTextStrip pf)
          | none => s2l "00"
        pyFloat (whole ++ '.' :: frac)
      | none => none
    | none => none
  if pyTruthyFloat p0 then p0
  else
    match bfind first_offer (fun n => tagIs n (s2l "span") && classHasStr n (s2l "a-offscreen")) with
    | some o => parse_price (getTextStrip o)
    | none => p0

/-- The `aria-label` predicate `lambda x: x and "seller" in x.lower()`
of main.py line 286. -/
def ariaSeller (n : Node) : Bool :=
  match getAttr n (s2l "aria-label") with
  | some v => v ≠ [] && hasSub (s2l "seller") (lowerStr v)
  | none => false

/-- Seller extraction from the first offer block (main.py lines
262-300): the `olpSellerName` heading (link text, else span text, else
its own non-`Amazon.co.za` text), else an aria-labelled seller link,
else the explicit amazon phrases, else the `Sold by X` regex capture. -/
def olSeller (first_offer : Node) : Option Str :=
  let m1 : Option Str :=
    match bfind first_offer (fun n =>
        tagIs n (s2l "h3") && classHasStr n (s2l "a-spacing-none olpSellerName")) with
    | some h =>
      match bfind h (fun n => tagIs n (s2l "a")) with
      | some a => some (getTextStrip a)
      | none =>
        match bfind h (fun n => tagIs n (s2l "span")) with
        | some sp => some (getTextStrip sp)
        | none =>
          let t := getTextStrip h
          if t ≠ [] ∧ t ≠ s2l "Amazon.co.za" then some t else none
    | none => none
  let m2 := sellerStep m1
    ((bfind first_offer (fun n => tagIs n (s2l "a") && ariaSeller n)).map getTextStrip)
  let m3 : Option Str :=
    let offer_text := getTextSep first_offer (s2l " ")
    if hasSub (s2l "sold by amazon.co.za") (lowerStr offer_text) ||
        hasSub (s2l "ships from and sold by amazon") (lowerStr offer_text) then
      some (s2l "Amazon.co.za")
    else (soldByOffer offer_text).map stripWs
  sellerStep m2 m3

/-- Embedding of the parse stage of `get_offer_listing_data`
(main.py lines 230-306) for a fetched HTTP-200 offer-listing document:
a dictionary is returned only when both the extracted price and the
extracted seller are truthy. -/
def get_offer_listing_data (doc : Node) : Option OfferData :=
  match (offersOf doc).head? with
  | none => none
  | some fo =>
    let p := olPrice fo
    let s := olSeller fo
    if pyTruthyFloat p ∧ pyTruthyStr s then
      some { price := p.getD 0, seller := s.getD [] }
    else none

/-- One attempt's outcome as observed by the retry loop: the status
string of the returned dictionary, tagged with the attempt number so
distinct attempts' results are distinguishable. -/
structure ScrapeOutcome where
  status : Str
  tag : ℕ
deriving DecidableEq

/-- Loop of `scrape_with_retry` (main.py lines 688-701) starting at a
given attempt number with the given number of remaining iterations:
return on success, continue (after a backoff sleep) on blocked or
error, break on anything else; when the loop ends, the last fetched
result is returned.  `none` models the `NameError` of a zero-iteration
loop (never reached by callers, which use the default of 3). -/
def retryFrom (outcomes : ℕ → ScrapeOutcome) (attempt : ℕ) : ℕ → Option ScrapeOutcome
  | 0 => none
  | fuel + 1 =>
    let data := outcomes attempt
    if data.status = s2l "success" then some data
    else if data.status = s2l "blocked" ∨ data.status = s2l "error" then
      match retryFrom outcomes (attempt + 1) fuel with
      | some d => some d
      | none => some data
    else some data

/-- Embedding of `scrape_with_retry` (main.py lines 686-702) over the
sequence of outcomes that successive `get_amazon_buybox` calls would
produce (attempts are numbered from 1). -/
def scrape_with_retry (outcomes : ℕ → ScrapeOutcome) (max_retries : ℕ) : Option ScrapeOutcome :=
  retryFrom outcomes 1 max_retries

/-- One row of the `price_history` table (database.py lines 51-60). -/
structure HistoryRow where
  asin : Str
  marketplace : Str
  price : Option ℚ
  seller : Option Str
  status : Option Str
  timestamp : Str
deriving DecidableEq

/-- Embedding of `save_price_history` (database.py lines 117-130): when
the result's `buybox_price` is falsy (absent, `None` or `0.0`), store
nothing; otherwise append one snapshot row. -/
def save_price_history (db : List HistoryRow) (data : ExtractResult) (now : Str) :
    List HistoryRow :=
  if pyTruthyFloat data.buybox_price then
    db ++ [{ asin := data.asin,
             marketplace := data.marketplace.getD (s2l "amazon.co.za"),
             price := data.buybox_price, seller := data.buybox_seller,
             status := data.buybox_status, timestamp := now }]
  else db

/-- Concrete page: the only price-bearing element is a legacy
`priceblock_ourprice` span reading `-5`. -/
def docNegPrice : Node :=
  .elem (s2l "html") []
    [.elem (s2l "span") [(s2l "id", s2l "priceblock_ourprice")] [.text (s2l "-5")]]

/-- Concrete page: the only price-bearing element is a legacy
`priceblock_ourprice` span reading `0`. -/
def docZeroPrice : Node :=
  .elem (s2l "html") []
    [.elem (s2l "span") [(s2l "id", s2l "priceblock_ourprice")] [.text (s2l "0")]]

/-- Concrete offer-listing page: one offer block with a whole-price span
reading `5` and no seller markup or seller text at all. -/
def docOfferOnlyPrice : Node :=
  .elem (s2l "html") []
    [.elem (s2l "div") [(s2l "class", s2l "a-row a-spacing-mini olpOffer")]
      [.elem (s2l "span") [(s2l "class", s2l "a-price")]
        [.elem (s2l "span") [(s2l "class", s2l "a-price-whole")] [.text (s2l "5")]]]]

/-- Concrete page: a `landingImage` img element with no attributes at
all (no `src`, no `data-a-dynamic-image`). -/
def docBareImg : Node :=
  .elem (s2l "html") []
    [.elem (s2l "img") [(s2l "id", s2l "landingImage")] []]

/-- Concrete page with no recognisable markup. -/
def docEmpty : Node := .elem (s2l "html") [] []

theorem startsW_iff (p : Str) : ∀ s, startsW p s = true ↔ ∃ r, s = p ++ r := by
  induction p with
  | nil => intro s; simp [startsW]
  | cons a ps ih =>
    intro s
    cases s with
    | nil =>
      simp [startsW]
    | cons c cs =>
      simp only [startsW, Bool.and_eq_true, beq_iff_eq, ih, List.cons_append,
        List.cons.injEq]
      constructor
      · rintro ⟨h1, r, h2⟩
        exact ⟨r, h1.symm, h2⟩
      · rintro ⟨r, h1, h2⟩
        exact ⟨h1.symm, r, h2⟩

theorem hasSub_iff (p : Str) : ∀ s, hasSub p s = true ↔ ∃ pre post, s = pre ++ (p ++ post) := by
  intro s
  induction s with
  | nil =>
    simp only [hasSub, startsW_iff]
    constructor
    · rintro ⟨r, hr⟩
      exact ⟨[], r, hr⟩
    · rintro ⟨pre, post, h⟩
      rcases List.append_eq_nil.mp h.symm with ⟨h1, h2⟩
      exact ⟨post, by simp [h1] at h ⊢; exact h⟩
  | cons c t ih =>
    simp only [hasSub, Bool.or_eq_true, startsW_iff, ih]
    constructor
    · rintro (⟨r, hr⟩ | ⟨pre, post, h⟩)
      · exact ⟨[], r, by simpa using hr⟩
      · exact ⟨c :: pre, post, by simp [h]⟩
    · rintro ⟨pre, post, h⟩
      cases pre with
      | nil =>
        exact Or.inl ⟨post, by simpa using h⟩
      | cons c2 pre2 =>
        simp only [List.cons_append, List.cons.injEq] at h
        exact Or.inr ⟨pre2, post, h.2⟩

theorem mem_of_hasSub {p s : Str} (h : hasSub p s = true) {c : Char} (hc : c ∈ p) : c ∈ s := by
  rcases (hasSub_iff p s).mp h with ⟨pre, post, rfl⟩
  simp [hc]

theorem mem_of_dropWhile {x : Char} {p : Char → Bool} :
    ∀ {s : Str}, x ∈ s.dropWhile p → x ∈ s := by
  intro s
  induction s with
  | nil => simp
  | cons c t ih =>
    rw [List.dropWhile_cons]
    split
    · intro h
      exact List.mem_cons_of_mem _ (ih h)
    · exact fun h => h

theorem mem_of_stripWs {x : Char} {s : Str} (h : x ∈ stripWs s) : x ∈ s := by
  unfold stripWs at h
  rw [List.mem_reverse] at h
  have h2 := mem_of_dropWhile h
  rw [List.mem_reverse] at h2
  exact mem_of_dropWhile h2

theorem mem_of_delChar {x c : Char} {s : Str} (h : x ∈ delChar c s) : x ∈ s := by
  unfold delChar at h
  exact (List.mem_filter.mp h).1

theorem not_mem_delChar_self (c : Char) (s : Str) : c ∉ delChar c s := by
  intro h
  have := (List.mem_filter.mp h).2
  simp at this

theorem not_mem_delChar {x c : Char} {s : Str} (h : x ∉ s) : x ∉ delChar c s :=
  fun hm => h (mem_of_delChar hm)

theorem delPair_of_not_mem {a b : Char} : ∀ {s : Str}, b ∉ s → delPair a b s = s := by
  intro s
  induction s with
  | nil => intro _; rfl
  | cons c t ih =>
    intro h
    have hbt : b ∉ t := fun hm => h (List.mem_cons_of_mem _ hm)
    cases t with
    | nil => rfl
    | cons d u =>
      have hdb : ¬ (c = a ∧ d = b) := by
        rintro ⟨-, he⟩
        exact h (by simp [he])
      simp only [delPair, if_neg hdb, ih hbt]

theorem matchesWordAt_elim {prev : Bool} {s : Str} (h : matchesWordAt prev s = true) :
    prev = false ∧ ∃ r, s = s2l "amazon" ++ r ∧ (∀ c, r.head? = some c → isWordChar c = false) := by
  unfold matchesWordAt at h
  rw [Bool.and_eq_true, Bool.and_eq_true] at h
  rcases h with ⟨⟨hp, hs⟩, hc⟩
  rcases (startsW_iff _ _).mp hs with ⟨r, rfl⟩
  have hprev : prev = false := by simpa using hp
  have hdrop : (s2l "amazon" ++ r).drop 6 = r := by
    have h6 : (s2l "amazon").length = 6 := by decide
    rw [← h6, List.drop_left]
  rw [hdrop] at hc
  refine ⟨hprev, r, rfl, ?_⟩
  intro d hd
  cases r with
  | nil => cases hd
  | cons x xs =>
    simp only [List.head?_cons, Option.some.injEq] at hd
    subst hd
    simpa using hc

theorem matchesWordAt_intro {prev : Bool} (hp : prev = false) {s : Str} (post : Str)
    (hs : s = s2l "amazon" ++ post)
    (hh : ∀ c, post.head? = some c → isWordChar c = false) :
    matchesWordAt prev s = true := by
  subst hs
  subst hp
  unfold matchesWordAt
  rw [Bool.and_eq_true, Bool.and_eq_true]
  refine ⟨⟨rfl, (startsW_iff _ _).mpr ⟨post, rfl⟩⟩, ?_⟩
  have hdrop : (s2l "amazon" ++ post).drop 6 = post := by
    have h6 : (s2l "amazon").length = 6 := by decide
    rw [← h6, List.drop_left]
  rw [hdrop]
  cases post with
  | nil => rfl
  | cons x xs => simpa using hh x rfl

theorem searchAuxW_iff : ∀ (s : Str) (prev : Bool), searchAuxW prev s = true ↔
    ∃ pre post, s = pre ++ (s2l "amazon" ++ post) ∧
      (pre = [] → prev = false) ∧
      (∀ c, pre.getLast? = some c → isWordChar c = false) ∧
      (∀ c, post.head? = some c → isWordChar c = false) := by
  intro s
  induction s with
  | nil =>
    intro prev
    constructor
    · intro h
      simp [searchAuxW] at h
    · rintro ⟨pre, post, h, -⟩
      exfalso
      rcases List.append_eq_nil.mp h.symm with ⟨-, h2⟩
      rcases List.append_eq_nil.mp h2 with ⟨h3, -⟩
      exact absurd h3 (by decide)
  | cons c t ih =>
    intro prev
    simp only [searchAuxW, Bool.or_eq_true]
    constructor
    · rintro (hm | hrec)
      · rcases matchesWordAt_elim hm with ⟨hp, r, hr, hc⟩
        exact ⟨[], r, by simpa using hr, fun _ => hp, by simp, hc⟩
      · rcases (ih (isWordChar c)).mp hrec with ⟨pre, post, hEq, hpre0, hlast, hhead⟩
        refine ⟨c :: pre, post, by simp [hEq], by simp, ?_, hhead⟩
        intro d hd
        cases pre with
        | nil =>
          simp only [List.getLast?_singleton, Option.some.injEq] at hd
          subst hd
          exact hpre0 rfl
        | cons p ps =>
          rw [List.getLast?_cons_cons] at hd
          exact hlast d hd
    · rintro ⟨pre, post, hEq, hpre0, hlast, hhead⟩
      cases pre with
      | nil =>
        exact Or.inl (matchesWordAt_intro (hpre0 rfl) post (by simpa using hEq) hhead)
      | cons p ps =>
        right
        simp only [List.cons_append, List.cons.injEq] at hEq
        rcases hEq with ⟨hcp, hT⟩
        subst hcp
        refine (ih (isWordChar c)).mpr ⟨ps, post, hT, ?_, ?_, hhead⟩
        · intro hps
          subst hps
          exact hlast c (by simp)
        · intro d hd
          cases ps with
          | nil => cases hd
          | cons q qs =>
            exact hlast d (by rw [List.getLast?_cons_cons]; exact hd)

theorem hasWordAmazon_iff (s : Str) : hasWordAmazon s = true ↔
    ∃ pre post, s = pre ++ (s2l "amazon" ++ post) ∧
      (∀ c, pre.getLast? = some c → isWordChar c = false) ∧
      (∀ c, post.head? = some c → isWordChar c = false) := by
  unfold hasWordAmazon
  rw [searchAuxW_iff]
  constructor
  · rintro ⟨pre, post, h1, -, h3, h4⟩
    exact ⟨pre, post, h1, h3, h4⟩
  · rintro ⟨pre, post, h1, h3, h4⟩
    exact ⟨pre, post, h1, fun _ => rfl, h3, h4⟩

theorem parse_price_pos (raw : Str) : ∀ q : ℚ, parse_price raw = some q → 0 < q := by
  intro q h
  unfold parse_price at h
  split at h
  · exact absurd h (by simp)
  · dsimp only at h
    split at h
    · split at h
      · rename_i v hv
        cases h
        exact hv
      · exact absurd h (by simp)
    · exact absurd h (by simp)

theorem scanFirst_pos : ∀ (l : List Node) (q : ℚ), scanFirst l = some q → 0 < q := by
  intro l
  induction l with
  | nil =>
    intro q h
    simp [scanFirst] at h
  | cons sp rest ih =>
    intro q h
    unfold scanFirst at h
    split at h
    · split at h
      · rename_i hcond
        cases h
        exact hcond.2
      · exact ih q h
    · exact ih q h

theorem mergeOffer_keeps_truthy_price (price : Option ℚ) (seller : Option Str)
    (offer : Option OfferData) (h : pyTruthyFloat price = true) :
    (mergeOffer price seller offer).1 = price := by
  unfold mergeOffer
  split
  · cases offer with
    | none => rfl
    | some od =>
      simp only [h]
      split
      · rename_i hcond
        exact absurd h (by simpa using hcond.1)
      · rfl
  · rfl

theorem mergeOffer_keeps_truthy_seller (price : Option ℚ) (seller : Option Str)
    (offer : Option OfferData) (h : pyTruthyStr seller = true) :
    (mergeOffer price seller offer).2 = seller := by
  unfold mergeOffer
  split
  · cases offer with
    | none => rfl
    | some od =>
      simp only [h]
      split
      · rename_i hcond
        exact absurd h (by simpa using hcond.1)
      · rfl
  · rfl

theorem mergeOffer_fills_price (price : Option ℚ) (seller : Option Str) (od : OfferData)
    (h : pyTruthyFloat price = false) (hod : od.price ≠ 0) :
    (mergeOffer price seller (some od)).1 = some od.price := by
  unfold mergeOffer
  rw [if_pos (Or.inr (by simp [h]))]
  simp [h, hod]

theorem mergeOffer_fills_seller (price : Option ℚ) (seller : Option Str) (od : OfferData)
    (h : pyTruthyStr seller = false) (hod : od.seller ≠ []) :
    (mergeOffer price seller (some od)).2 = some od.seller := by
  unfold mergeOffer
  rw [if_pos (Or.inl (by simp [h]))]
  simp [h, hod]

/-- Claim C1, counterexample: the empty string is a non-null seller, yet
with both flags false the classifier yields `unknown`, not `losing` as
the claim states — the code tests Python truthiness, not non-nullness. -/
theorem C1_counterexample :
    buybox_status_of (some []) false false = s2l "unknown" ∧
    buybox_status_of (some []) false false ≠ s2l "losing" := by
  decide

/-- Claim C1 (amended): the status classifier is the tri-state-plus-
unknown mapping with own-seller precedence, where the third case fires
for a non-null and non-empty (truthy) seller string: own flag true gives
`winning` regardless of the reference flag; else reference flag true
gives `amazon`; else a truthy seller gives `losing`; else `unknown`. -/
theorem C1_classifier_amended : ∀ (s : Option Str) (isRef isOwn : Bool),
    (isOwn = true → buybox_status_of s isRef isOwn = s2l "winning") ∧
    (isOwn = false → isRef = true → buybox_status_of s isRef isOwn = s2l "amazon") ∧
    (isOwn = false → isRef = false → pyTruthyStr s = true →
      buybox_status_of s isRef isOwn = s2l "losing") ∧
    (isOwn = false → isRef = false → pyTruthyStr s = false →
      buybox_status_of s isRef isOwn = s2l "unknown") := by
  intro s isRef isOwn
  refine ⟨?_, ?_, ?_, ?_⟩ <;> intros <;> simp_all [buybox_status_of]

/-- Claim C1, witness: the amended classifier at the spec's own test
vectors, including the own-seller-wins-tie case. -/
theorem C1_witness :
    buybox_status_of (some (s2l "Amazon.co.za")) true true = s2l "winning" ∧
    buybox_status_of (some (s2l "Amazon.co.za")) true false = s2l "amazon" ∧
    buybox_status_of (some (s2l "SomeThirdParty")) false false = s2l "losing" ∧
    buybox_status_of none false false = s2l "unknown" :=
  ⟨(C1_classifier_amended (some (s2l "Amazon.co.za")) true true).1 rfl,
   (C1_classifier_amended (some (s2l "Amazon.co.za")) true false).2.1 rfl rfl,
   (C1_classifier_amended (some (s2l "SomeThirdParty")) false false).2.2.1 rfl rfl (by decide),
   (C1_classifier_amended none false false).2.2.2 rfl rfl (by decide)⟩

/-- Claim C2: the number normalizer satisfies the six reference vectors,
and its cleaning stage removes every occurrence of the currency glyphs
R, £, $, €, A$, C$ and of the no-break/narrow-space characters from
every raw string. -/
theorem C2_normalizer :
    parse_price (s2l "1 660,00") = some 1660 ∧
    parse_price (s2l "1,660.00") = some 1660 ∧
    parse_price (s2l "53.48") = some (5348 / 100) ∧
    parse_price (s2l "0") = none ∧
    parse_price (s2l "-5") = none ∧
    parse_price (s2l "") = none ∧
    ∀ raw : Str,
      'R' ∉ pp_cleaned raw ∧ '£' ∉ pp_cleaned raw ∧ '$' ∉ pp_cleaned raw ∧
      '€' ∉ pp_cleaned raw ∧ '\u00A0' ∉ pp_cleaned raw ∧ '\u202F' ∉ pp_cleaned raw ∧
      hasSub (s2l "A$") (pp_cleaned raw) = false ∧
      hasSub (s2l "C$") (pp_cleaned raw) = false := by
  refine ⟨by with_unfolding_all decide, by with_unfolding_all decide,
    by with_unfolding_all decide, by with_unfolding_all decide,
    by with_unfolding_all decide, by with_unfolding_all decide, ?_⟩
  intro raw
  have hd : '$' ∉ delChar '€' (delChar '$' (delChar '£' (delChar 'R'
      (delChar '\u202F' (delChar '\u00A0' raw))))) :=
    not_mem_delChar (not_mem_delChar_self '$' _)
  have hA : delPair 'A' '$' (delChar '€' (delChar '$' (delChar '£' (delChar 'R'
      (delChar '\u202F' (delChar '\u00A0' raw)))))) =
      delChar '€' (delChar '$' (delChar '£' (delChar 'R'
      (delChar '\u202F' (delChar '\u00A0' raw))))) :=
    delPair_of_not_mem hd
  have hPP : pp_cleaned raw = stripWs (delChar '€' (delChar '$' (delChar '£' (delChar 'R'
      (delChar '\u202F' (delChar '\u00A0' raw)))))) := by
    unfold pp_cleaned
    rw [hA, delPair_of_not_mem hd]
  have hdS : '$' ∉ pp_cleaned raw := by
    rw [hPP]
    exact fun hm => hd (mem_of_stripWs hm)
  have hRS : 'R' ∉ pp_cleaned raw := by
    rw [hPP]
    intro hm
    exact not_mem_delChar (not_mem_delChar (not_mem_delChar (not_mem_delChar_self 'R' _)))
      (mem_of_stripWs hm)
  have hPS : '£' ∉ pp_cleaned raw := by
    rw [hPP]
    intro hm
    exact not_mem_delChar (not_mem_delChar (not_mem_delChar_self '£' _))
      (mem_of_stripWs hm)
  have hES : '€' ∉ pp_cleaned raw := by
    rw [hPP]
    intro hm
    exact not_mem_delChar_self '€' _ (mem_of_stripWs hm)
  have hNB : '\u00A0' ∉ pp_cleaned raw := by
    rw [hPP]
    intro hm
    exact not_mem_delChar (not_mem_delChar (not_mem_delChar (not_mem_delChar
      (not_mem_delChar (not_mem_delChar_self '\u00A0' _)))))
      (mem_of_stripWs hm)
  have hNN : '\u202F' ∉ pp_cleaned raw := by
    rw [hPP]
    intro hm
    exact not_mem_delChar (not_mem_delChar (not_mem_delChar (not_mem_delChar
      (not_mem_delChar_self '\u202F' _))))
      (mem_of_stripWs hm)
  refine ⟨hRS, hPS, hdS, hES, hNB, hNN, ?_, ?_⟩
  · cases hb : hasSub (s2l "A$") (pp_cleaned raw) with
    | false => rfl
    | true => exact absurd (mem_of_hasSub hb (by decide)) hdS
  · cases hb : hasSub (s2l "C$") (pp_cleaned raw) with
    | false => rfl
    | true => exact absurd (mem_of_hasSub hb (by decide)) hdS

/-- Claim C2, witness: the glyph-absence part of the normalizer theorem
evaluated at a concrete raw string containing every glyph. -/
theorem C2_witness :
    'R' ∉ pp_cleaned (s2l "R£$€A$C$ 12") ∧ '$' ∉ pp_cleaned (s2l "R£$€A$C$ 12") :=
  ⟨(C2_normalizer.2.2.2.2.2.2 (s2l "R£$€A$C$ 12")).1,
   (C2_normalizer.2.2.2.2.2.2 (s2l "R£$€A$C$ 12")).2.2.1⟩

/-- Claim C3, counterexample: a page whose only price-bearing element is
the legacy `priceblock_ourprice` span reading `-5` gets a stored buybox
price of `-5.0` — non-null and not positive — because the legacy price
fallback (main.py lines 425-433) converts with `float` and performs no
positivity check. -/
theorem C3_counterexample :
    (get_amazon_buybox docNegPrice (s2l "B000123456") (s2l "amazon.co.za") none
      (s2l "2024-01-01T00:00:00")).buybox_price = some (-5) ∧
    ¬ (0 < (-5 : ℚ)) ∧ (some (-5 : ℚ) ≠ (none : Option ℚ)) := by
  with_unfolding_all decide

/-- Claim C3 (amended): the normalizer-based price strategies discard
non-positive parses — `parse_price` returns null or a positive value,
and the whole-page offscreen scan keeps only positive values — but the
legacy price-element fallback stores its `float` conversion unchecked,
so the record's price can be zero or negative. -/
theorem C3_price_positive :
    (∀ raw : Str, ∀ q : ℚ, parse_price raw = some q → 0 < q) ∧
    (∀ doc : Node, ∀ q : ℚ, scanPrice doc = some q → 0 < q) := by
  constructor
  · exact parse_price_pos
  · intro doc q h
    exact scanFirst_pos _ q h

/-- Claim C3, witness: the positivity theorem applied to the concrete
vector `53.48` and to the scan of a concrete page. -/
theorem C3_witness :
    parse_price (s2l "53.48") = some (5348 / 100) ∧ (0 : ℚ) < 5348 / 100 :=
  ⟨by with_unfolding_all decide,
   C3_price_positive.1 (s2l "53.48") (5348 / 100) (by with_unfolding_all decide)⟩

theorem retryFrom_congr (f g : ℕ → ScrapeOutcome) : ∀ (a fuel : ℕ),
    (∀ i, a ≤ i → i < a + fuel → f i = g i) →
    retryFrom f a fuel = retryFrom g a fuel := by
  intro a fuel
  induction fuel generalizing a with
  | zero => intro _; rfl
  | succ m ih =>
    intro h
    have hfa : f a = g a := h a (le_refl a) (by omega)
    simp only [retryFrom]
    rw [hfa, ih (a + 1) (fun i hi1 hi2 => h i (by omega) (by omega))]

/-- Attempt-outcome sequence blocked, blocked, success (attempt numbers
start at 1). -/
def seqBBS : ℕ → ScrapeOutcome := fun i =>
  { status := if 3 ≤ i then s2l "success" else s2l "blocked", tag := i }

/-- Attempt-outcome sequence that is an error on every attempt. -/
def seqEEE : ℕ → ScrapeOutcome := fun i => { status := s2l "error", tag := i }

/-- Claim C4: the retry orchestrator returns the first successful
attempt's result immediately; on [blocked, blocked, success] with three
attempts it returns the third attempt's success result (two retries); on
[error, error, error] it returns the third attempt's still-error result,
and with maxAttempts three the result never depends on any attempt past
the third (no fourth attempt); on any outcome other than
success/blocked/error it stops at once and returns that result as-is. -/
theorem C4_retry :
    (∀ (f : ℕ → ScrapeOutcome) (n : ℕ), 1 ≤ n → (f 1).status = s2l "success" →
      scrape_with_retry f n = some (f 1)) ∧
    scrape_with_retry seqBBS 3 = some { status := s2l "success", tag := 3 } ∧
    scrape_with_retry seqEEE 3 = some { status := s2l "error", tag := 3 } ∧
    (∀ f g : ℕ → ScrapeOutcome, (∀ i, 1 ≤ i → i ≤ 3 → f i = g i) →
      scrape_with_retry f 3 = scrape_with_retry g 3) ∧
    (∀ (f : ℕ → ScrapeOutcome) (n : ℕ), 1 ≤ n →
      (f 1).status ≠ s2l "success" → (f 1).status ≠ s2l "blocked" →
      (f 1).status ≠ s2l "error" → scrape_with_retry f n = some (f 1)) := by
  refine ⟨?_, by decide, by decide, ?_, ?_⟩
  · intro f n h1 hs
    cases n with
    | zero => omega
    | succ m =>
      simp only [scrape_with_retry, retryFrom]
      rw [if_pos hs]
  · intro f g h
    show retryFrom f 1 3 = retryFrom g 1 3
    exact retryFrom_congr f g 1 3 (fun i hi1 hi2 => h i hi1 (by omega))
  · intro f n h1 hs hb he
    cases n with
    | zero => omega
    | succ m =>
      have hor : ¬ ((f 1).status = s2l "blocked" ∨ (f 1).status = s2l "error") := by
        rintro (h | h)
        · exact hb h
        · exact he h
      simp only [scrape_with_retry, retryFrom]
      rw [if_neg hs, if_neg hor]

/-- Claim C4, witness: an immediately successful first attempt is
returned at once, and an unrecognised outcome (status `pending`) stops
the loop with that result. -/
theorem C4_witness :
    scrape_with_retry (fun i => { status := s2l "success", tag := i }) 3 =
      some { status := s2l "success", tag := 1 } ∧
    scrape_with_retry (fun i => { status := s2l "pending", tag := i }) 3 =
      some { status := s2l "pending", tag := 1 } :=
  ⟨C4_retry.1 (fun i => { status := s2l "success", tag := i }) 3 (by omega) rfl,
   C4_retry.2.2.2.2 (fun i => { status := s2l "pending", tag := i }) 3 (by omega)
     (by decide) (by decide) (by decide)⟩

/-- Claim C5, counterexample: on a page whose legacy price parse yields
`0.0`, the primary price is non-null (`some 0`), yet the secondary-source
merge overwrites it with the offer-listing price, because the merge
tests Python truthiness (`if not price`) rather than nullness. -/
theorem C5_counterexample :
    (get_amazon_buybox docZeroPrice (s2l "B000123456") (s2l "amazon.co.za") none
      (s2l "2024-01-01T00:00:00")).buybox_price = some 0 ∧
    (some (0 : ℚ) ≠ (none : Option ℚ)) ∧
    (get_amazon_buybox docZeroPrice (s2l "B000123456") (s2l "amazon.co.za")
      (some { price := 125, seller := s2l "OtherSeller" })
      (s2l "2024-01-01T00:00:00")).buybox_price = some 125 ∧
    (some (125 : ℚ) ≠ some (0 : ℚ)) := by
  with_unfolding_all decide

/-- Claim C5 (amended): the secondary-source merge never overwrites a
truthy primary value — it fills `price` only when the primary price is
falsy (null or `0.0`) and `seller` only when the primary seller is falsy
(null or empty), taking the value from the offer dictionary — and the
merge leaves every other field of the record unchanged. -/
theorem C5_merge_frame :
    (∀ (p : Option ℚ) (s : Option Str) (o : Option OfferData),
      pyTruthyFloat p = true → (mergeOffer p s o).1 = p) ∧
    (∀ (p : Option ℚ) (s : Option Str) (o : Option OfferData),
      pyTruthyStr s = true → (mergeOffer p s o).2 = s) ∧
    (∀ (p : Option ℚ) (s : Option Str) (od : OfferData),
      pyTruthyFloat p = false → od.price ≠ 0 → (mergeOffer p s (some od)).1 = some od.price) ∧
    (∀ (p : Option ℚ) (s : Option Str) (od : OfferData),
      pyTruthyStr s = false → od.seller ≠ [] → (mergeOffer p s (some od)).2 = some od.seller) ∧
    (∀ (doc : Node) (a m : Str) (offer : Option OfferData) (t : Str),
      (get_amazon_buybox doc a m offer t).asin = (get_amazon_buybox doc a m none t).asin ∧
      (get_amazon_buybox doc a m offer t).url = (get_amazon_buybox doc a m none t).url ∧
      (get_amazon_buybox doc a m offer t).marketplace = (get_amazon_buybox doc a m none t).marketplace ∧
      (get_amazon_buybox doc a m offer t).scraped_at = (get_amazon_buybox doc a m none t).scraped_at ∧
      (get_amazon_buybox doc a m offer t).status = (get_amazon_buybox doc a m none t).status ∧
      (get_amazon_buybox doc a m offer t).error = (get_amazon_buybox doc a m none t).error ∧
      (get_amazon_buybox doc a m offer t).title = (get_amazon_buybox doc a m none t).title ∧
      (get_amazon_buybox doc a m offer t).currency = (get_amazon_buybox doc a m none t).currency ∧
      (get_amazon_buybox doc a m offer t).rating = (get_amazon_buybox doc a m none t).rating ∧
      (get_amazon_buybox doc a m offer t).review_count = (get_amazon_buybox doc a m none t).review_count ∧
      (get_amazon_buybox doc a m offer t).availability = (get_amazon_buybox doc a m none t).availability ∧
      (get_amazon_buybox doc a m offer t).image_url = (get_amazon_buybox doc a m none t).image_url) := by
  refine ⟨mergeOffer_keeps_truthy_price, mergeOffer_keeps_truthy_seller,
    mergeOffer_fills_price, mergeOffer_fills_seller, ?_⟩
  intro doc a m offer t
  unfold get_amazon_buybox
  cases h : imageStep doc with
  | error msg => simp
  | ok img => simp

/-- Claim C5, witness: the merge properties at concrete values — a
truthy primary price survives the merge, and a null seller is filled
from the offer. -/
theorem C5_witness :
    (mergeOffer (some 7) none (some { price := 9, seller := s2l "A" })).1 = some 7 ∧
    (mergeOffer (some 7) none (some { price := 9, seller := s2l "A" })).2 = some (s2l "A") :=
  ⟨C5_merge_frame.1 (some 7) none (some { price := 9, seller := s2l "A" })
     (by with_unfolding_all decide),
   C5_merge_frame.2.2.2.1 (some 7) none { price := 9, seller := s2l "A" } rfl (by decide)⟩

theorem pyTruthyFloat_some {p : Option ℚ} (h : pyTruthyFloat p = true) :
    p = some (p.getD 0) ∧ p.getD 0 ≠ 0 := by
  cases p with
  | none => simp [pyTruthyFloat] at h
  | some q =>
    refine ⟨rfl, ?_⟩
    simpa [pyTruthyFloat] using h

theorem pyTruthyStr_some {s : Option Str} (h : pyTruthyStr s = true) :
    s = some (s.getD []) ∧ s.getD [] ≠ [] := by
  cases s with
  | none => simp [pyTruthyStr] at h
  | some v =>
    refine ⟨rfl, ?_⟩
    simpa [pyTruthyStr] using h

/-- Concrete offer-listing page whose first offer carries both a price
(`5`) and a seller name (`Acme Store`). -/
def docOfferFull : Node :=
  .elem (s2l "html") []
    [.elem (s2l "div") [(s2l "class", s2l "a-row a-spacing-mini olpOffer")]
      [.elem (s2l "span") [(s2l "class", s2l "a-price")]
        [.elem (s2l "span") [(s2l "class", s2l "a-price-whole")] [.text (s2l "5")]],
       .elem (s2l "h3") [(s2l "class", s2l "a-spacing-none olpSellerName")]
        [.elem (s2l "a") [] [.text (s2l "Acme Store")]]]]

/-- Claim C6, counterexample: an offer-listing page whose first offer
yields a recoverable (truthy, positive) price but no seller makes
`get_offer_listing_data` return `None` — not a part-filled result containing
the recoverable field — because main.py line 302 requires
`if price and seller`. -/
theorem C6_counterexample :
    (offersOf docOfferOnlyPrice).head?.map olPrice = some (some 5) ∧
    (offersOf docOfferOnlyPrice).head?.map olSeller = some none ∧
    get_offer_listing_data docOfferOnlyPrice = none := by
  with_unfolding_all decide

/-- Claim C6 (amended): the secondary-source fallback returns a
non-null result exactly when both the price and the seller of the first
offer block are recoverable (truthy); the returned dictionary then
carries exactly those two extracted values, both truthy.  A page where
only one of the two fields is recoverable yields null. -/
theorem C6_offer_both : ∀ doc : Node,
    ((∃ od, get_offer_listing_data doc = some od) ↔
      ∃ fo, (offersOf doc).head? = some fo ∧
        pyTruthyFloat (olPrice fo) = true ∧ pyTruthyStr (olSeller fo) = true) ∧
    (∀ od fo, (offersOf doc).head? = some fo → get_offer_listing_data doc = some od →
      olPrice fo = some od.price ∧ olSeller fo = some od.seller ∧
      od.price ≠ 0 ∧ od.seller ≠ []) := by
  intro doc
  unfold get_offer_listing_data
  cases hh : (offersOf doc).head? with
  | none =>
    constructor
    · constructor
      · rintro ⟨od, hod⟩
        cases hod
      · rintro ⟨fo, hfo, -⟩
        cases hfo
    · intro od fo hfo
      cases hfo
  | some fo =>
    dsimp only
    constructor
    · constructor
      · rintro ⟨od, hod⟩
        split at hod
        · rename_i hcond
          exact ⟨fo, rfl, by simpa using hcond.1, by simpa using hcond.2⟩
        · cases hod
      · rintro ⟨fo2, hfo2, hp, hs⟩
        injection hfo2 with hfo2e
        subst hfo2e
        rw [if_pos ⟨by simpa using hp, by simpa using hs⟩]
        exact ⟨_, rfl⟩
    · intro od fo2 hfo2 hod
      injection hfo2 with hfo2e
      subst hfo2e
      split at hod
      · rename_i hcond
        have hp := pyTruthyFloat_some (by simpa using hcond.1)
        have hs := pyTruthyStr_some (by simpa using hcond.2)
        injection hod with hode
        subst hode
        exact ⟨hp.1, hs.1, hp.2, hs.2⟩
      · cases hod

/-- Claim C6, witness: the amended equivalence applied to a concrete
page whose first offer yields both fields. -/
theorem C6_witness :
    ∃ fo, (offersOf docOfferFull).head? = some fo ∧
      pyTruthyFloat (olPrice fo) = true ∧ pyTruthyStr (olSeller fo) = true :=
  (C6_offer_both docOfferFull).1.mp
    ⟨{ price := 5, seller := s2l "Acme Store" }, by with_unfolding_all decide⟩

/-- Claim C7, counterexample: the seller `Amazonia` contains `amazon` as
a case-insensitive substring, yet the reference-seller flag is false —
the code (main.py line 531) uses the word-bounded regex `\bamazon\b`,
not substring containment. -/
theorem C7_counterexample :
    hasSub (s2l "amazon") (stripWs (lowerStr (s2l "Amazonia"))) = true ∧
    is_amazon_seller (some (s2l "Amazonia")) = false := by
  decide

/-- Claim C7 (amended): on the lowercased, stripped seller string, the
own-seller flag is exactly case-insensitive substring containment of the
configured own name, while the reference-seller flag is exactly a
word-bounded occurrence of `amazon` (the `amazon` token must not be
directly preceded or followed by a word character). -/
theorem C7_matching_amended : ∀ seller : Option Str,
    (is_my_buybox seller = true ↔
      ∃ pre post, stripWs (lowerStr (seller.getD [])) =
        pre ++ (lowerStr MY_SELLER_NAME ++ post)) ∧
    (is_amazon_seller seller = true ↔
      ∃ pre post, stripWs (lowerStr (seller.getD [])) =
        pre ++ (s2l "amazon" ++ post) ∧
        (∀ c, pre.getLast? = some c → isWordChar c = false) ∧
        (∀ c, post.head? = some c → isWordChar c = false)) := by
  intro seller
  constructor
  · unfold is_my_buybox
    exact hasSub_iff _ _
  · unfold is_amazon_seller
    exact hasWordAmazon_iff _

/-- Claim C7, witness: the amended characterisation applied to a seller
string that contains the configured own name with different casing. -/
theorem C7_witness :
    ∃ pre post, stripWs (lowerStr ((some (s2l "BONOLO ONLINE ZA")).getD [])) =
      pre ++ (lowerStr MY_SELLER_NAME ++ post) :=
  (C7_matching_amended (some (s2l "BONOLO ONLINE ZA"))).1.mp (by decide)

/-- Claim C8: a product page containing `<img id="landingImage">` with
no `src` and no `data-a-dynamic-image` attribute makes the extractor
raise `IndexError` at main.py line 571
(`img_el.get("data-a-dynamic-image", "").split('"')[1]` on the empty
default), which the outer handler (lines 579-581) converts into a
status-`error` result — a missing/empty element in the image chain turns
a successfully fetched page into an error outcome instead of a null
image.  By contrast, a page with no img element at all stays a success. -/
theorem C8_image_crash :
    (get_amazon_buybox docBareImg (s2l "B000123456") (s2l "amazon.co.za") none
      (s2l "2024-01-01T00:00:00")).status = s2l "error" ∧
    (get_amazon_buybox docBareImg (s2l "B000123456") (s2l "amazon.co.za") none
      (s2l "2024-01-01T00:00:00")).error = some (s2l "list index out of range") ∧
    (get_amazon_buybox docEmpty (s2l "B000123456") (s2l "amazon.co.za") none
      (s2l "2024-01-01T00:00:00")).status = s2l "success" ∧
    (get_amazon_buybox docEmpty (s2l "B000123456") (s2l "amazon.co.za") none
      (s2l "2024-01-01T00:00:00")).image_url = none := by
  with_unfolding_all decide

/-- Claim C9, counterexample: two extractions of the identical document
with the same marketplace and configuration are not byte-identical —
the result embeds the wall-clock `datetime.now().isoformat()` timestamp
(main.py line 353), so the `scraped_at` fields differ. -/
theorem C9_counterexample :
    get_amazon_buybox docEmpty (s2l "B000123456") (s2l "amazon.co.za") none
      (s2l "2024-01-01T00:00:00") ≠
    get_amazon_buybox docEmpty (s2l "B000123456") (s2l "amazon.co.za") none
      (s2l "2024-01-01T00:05:00") := by
  with_unfolding_all decide

/-- Claim C9 (amended): extraction is deterministic in the document,
marketplace and secondary-source data — two runs on the identical
inputs agree on every field except the `scraped_at` timestamp, which
records the wall-clock time of the call. -/
theorem C9_deterministic_amended : ∀ (doc : Node) (a m : Str)
    (offer : Option OfferData) (t1 t2 : Str),
    get_amazon_buybox doc a m offer t1 =
      { get_amazon_buybox doc a m offer t2 with scraped_at := t1 } := by
  intro doc a m offer t1 t2
  unfold get_amazon_buybox
  cases h : imageStep doc with
  | error msg => rfl
  | ok img => rfl

/-- Claim C9, witness: the up-to-timestamp determinism at a concrete
document and two concrete call times. -/
theorem C9_witness :
    get_amazon_buybox docEmpty (s2l "B000123456") (s2l "amazon.co.za") none (s2l "T1") =
      { get_amazon_buybox docEmpty (s2l "B000123456") (s2l "amazon.co.za") none (s2l "T2")
        with scraped_at := s2l "T1" } :=
  C9_deterministic_amended docEmpty (s2l "B000123456") (s2l "amazon.co.za") none
    (s2l "T1") (s2l "T2")

/-- Claim C10: the price-history append stores a row only for a truthy
(non-null, non-zero) buybox price — with a falsy price the table is
unchanged — and any row it ever appends carries a non-null price, so a
table whose rows all have non-null prices keeps that invariant. -/
theorem C10_history :
    (∀ (db : List HistoryRow) (data : ExtractResult) (now : Str),
      data.buybox_price = none → save_price_history db data now = db) ∧
    (∀ (db : List HistoryRow) (data : ExtractResult) (now : Str),
      pyTruthyFloat data.buybox_price = false → save_price_history db data now = db) ∧
    (∀ (db : List HistoryRow) (data : ExtractResult) (now : Str) (r : HistoryRow),
      r ∈ save_price_history db data now → r ∈ db ∨ ∃ q : ℚ, r.price = some q ∧ q ≠ 0) ∧
    (∀ (db : List HistoryRow) (data : ExtractResult) (now : Str),
      (∀ r ∈ db, r.price ≠ none) →
      ∀ r ∈ save_price_history db data now, r.price ≠ none) := by
  have key : ∀ (db : List HistoryRow) (data : ExtractResult) (now : Str) (r : HistoryRow),
      r ∈ save_price_history db data now → r ∈ db ∨ ∃ q : ℚ, r.price = some q ∧ q ≠ 0 := by
    intro db data now r hr
    unfold save_price_history at hr
    split at hr
    · rename_i hc
      rcases List.mem_append.mp hr with hl | hl
      · exact Or.inl hl
      · right
        have hp := pyTruthyFloat_some hc
        rcases List.mem_singleton.mp hl with rfl
        exact ⟨data.buybox_price.getD 0, by simpa using hp.1, hp.2⟩
    · exact Or.inl hr
  refine ⟨?_, ?_, key, ?_⟩
  · intro db data now hn
    unfold save_price_history
    rw [if_neg]
    rw [hn]
    simp [pyTruthyFloat]
  · intro db data now hf
    unfold save_price_history
    rw [if_neg]
    simp [hf]
  · intro db data now hdb r hr
    rcases key db data now r hr with hl | ⟨q, hq, -⟩
    · exact hdb r hl
    · rw [hq]
      simp

/-- Claim C10, witness: an extraction with a null price (the empty page)
appends nothing to a concrete history table. -/
theorem C10_witness :
    save_price_history []
      (get_amazon_buybox docEmpty (s2l "B000123456") (s2l "amazon.co.za") none (s2l "T"))
      (s2l "T2") = [] :=
  C10_history.1 []
    (get_amazon_buybox docEmpty (s2l "B000123456") (s2l "amazon.co.za") none (s2l "T"))
    (s2l "T2") (by with_unfolding_all decide)
